import Mathlib

/-!
Verification of the Pronunex pronunciation-assessment backend.

The Python modules under `backend/nlp_core` and `backend/apps/practice` are
shallowly embedded here.  Conventions used throughout:

* Finite floating-point values are idealised as rationals.  Where the code
  explicitly distinguishes NaN and infinity (the scorer's input guards), an
  array cell is an `FVal`: a finite rational, NaN, or a signed infinity.
* `int(x)` is truncation toward zero (`truncInt`), `round(x, n)` is exact
  round-half-to-even (`pyRound`).
* The floating-point square root used by `np.linalg.norm` is abstracted as an
  explicit function parameter `sqrt : ℚ → ℚ`; theorems that need facts about
  it (for example `sqrt 0 = 0`) take them as hypotheses.
* Model inference (Wav2Vec2 transcription, alignment, embedding matrices) and
  the filesystem are oracles: their outputs are inputs of the embedded
  functions, exactly at the boundaries where the Python code receives them.
-/

set_option allowUnsafeReducibility true
set_option maxRecDepth 100000
attribute [local semireducible] Rat.add Rat.mul Rat.sub Rat.inv Rat.ofScientific

namespace Pronunex

/-- A floating-point array cell: a finite value (idealised as a rational),
NaN, or a signed infinity. -/
inductive FVal
  | fin (q : ℚ)
  | nan
  | inf
  | ninf
deriving DecidableEq, Repr

/-- Python `int(x)` on a real argument: truncation toward zero. -/
def truncInt (q : ℚ) : ℤ := if 0 ≤ q then ⌊q⌋ else -⌊-q⌋

/-- Round-half-to-even to an integer (the rounding mode of Python `round`,
idealised to exact arithmetic). -/
def roundHalfEven (q : ℚ) : ℤ :=
  if q - ⌊q⌋ = 1/2 then (if 2 ∣ ⌊q⌋ then ⌊q⌋ else ⌊q⌋ + 1) else ⌊q + 1/2⌋

/-- Python `round(q, ndigits)`. -/
def pyRound (ndigits : ℕ) (q : ℚ) : ℚ :=
  (roundHalfEven (q * (10 ^ ndigits : ℕ)) : ℚ) / (10 ^ ndigits : ℕ)

/-- IEEE-style addition on `FVal`: NaN absorbs, opposite infinities give NaN. -/
def FVal.add : FVal → FVal → FVal
  | .nan, _ => .nan
  | _, .nan => .nan
  | .inf, .ninf => .nan
  | .ninf, .inf => .nan
  | .inf, _ => .inf
  | _, .inf => .inf
  | .ninf, _ => .ninf
  | _, .ninf => .ninf
  | .fin a, .fin b => .fin (a + b)

/-- Division of a cell by a (positive) element count, for mean pooling. -/
def FVal.divNat : FVal → ℕ → FVal
  | .fin q, n => .fin (q / (n : ℚ))
  | x, _ => x

/-- Whether a cell is a finite value. -/
def FVal.isFinite : FVal → Bool
  | .fin _ => true
  | _ => false

/-- `np.any(np.isnan(v))`. -/
def isNanVec (v : List FVal) : Bool := v.any (· == FVal.nan)

/-- `np.any(np.isinf(v))`. -/
def isInfVec (v : List FVal) : Bool := v.any (fun x => x == FVal.inf || x == FVal.ninf)

/-- `np.all(v == 0)` (NaN and infinities compare unequal to 0). -/
def isZeroVec (v : List FVal) : Bool := v.all (· == FVal.fin 0)

/-- The finite value of a cell (only used after NaN/Inf guards have passed). -/
def FVal.toQ : FVal → ℚ
  | .fin q => q
  | _ => 0

/-- Componentwise vector addition. -/
def vecAddF (v w : List FVal) : List FVal := List.zipWith FVal.add v w

/-- Sum of a list of rows (`np.sum` along axis 0). -/
def vecSumF : List (List FVal) → List FVal
  | [] => []
  | [r] => r
  | r :: rs => vecAddF r (vecSumF rs)

/-- `np.mean(rows, axis=0)`. -/
def meanRows (rows : List (List FVal)) : List FVal :=
  (vecSumF rows).map (fun x => x.divNat rows.length)

/-!
Embedding of `backend/nlp_core/vectorizer.py`.

`compute_contextual_embeddings` runs the Wav2Vec2 model over the whole audio
file; its output matrix is an oracle input here.  The pure tensor-slicing
logic `slice_embeddings_by_timestamps` is embedded in full.
-/

/-- `WAV2VEC2_STRIDE_SECONDS = 320 / 16000` (0.02 s per frame). -/
def WAV2VEC2_STRIDE_SECONDS : ℚ := 320 / 16000

/-- A phoneme timestamp window as produced by the aligner:
`{'phoneme': ..., 'start': ..., 'end': ..., 'index': ...}`. -/
structure TsWindow where
  phoneme : String
  tstart : ℚ
  tend : ℚ
  index : ℕ
deriving DecidableEq, Repr

/-- The frame-index computation of `slice_embeddings_by_timestamps` for one
window: seconds to frame indices by truncating division, clamp the start to 0
and the end to `num_frames`, then widen a degenerate (empty) range to at least
one frame, pulling it back inside the matrix if necessary. -/
def frameRange (numFrames : ℕ) (stride : ℚ) (ts : TsWindow) : ℤ × ℤ :=
  let start0 := truncInt (ts.tstart / stride)
  let end0 := truncInt (ts.tend / stride)
  let s1 := max 0 start0
  let e1 := min (numFrames : ℤ) end0
  if e1 ≤ s1 then
    if s1 + 1 > (numFrames : ℤ) then (max 0 ((numFrames : ℤ) - 1), (numFrames : ℤ))
    else (s1, s1 + 1)
  else (s1, e1)

/-- `full_embeddings[start_frame:end_frame, :]` for one timestamp window. -/
def sliceRows (full : List (List FVal)) (stride : ℚ) (ts : TsWindow) : List (List FVal) :=
  let se := frameRange full.length stride ts
  (full.drop se.1.toNat).take (se.2 - se.1).toNat

/-- Mean pooling of one window's frame slice; an empty slice yields the
768-dimensional zero vector, as in the code. -/
def pooledVec (full : List (List FVal)) (stride : ℚ) (ts : TsWindow) : List FVal :=
  let fs := sliceRows full stride ts
  if 0 < fs.length then meanRows fs else List.replicate 768 (FVal.fin 0)

/-- `slice_embeddings_by_timestamps(full_embeddings, timestamps, stride)`. -/
def slice_embeddings_by_timestamps (full : List (List FVal)) (timestamps : List TsWindow)
    (stride : ℚ) : List (List FVal) :=
  timestamps.map (pooledVec full stride)

/-- The clamped, widened frame range always selects a non-empty in-bounds row
range once the matrix has at least one frame. -/
theorem frameRange_bounds (numFrames : ℕ) (stride : ℚ) (ts : TsWindow)
    (h : 1 ≤ numFrames) :
    0 ≤ (frameRange numFrames stride ts).1 ∧
      (frameRange numFrames stride ts).1 < (frameRange numFrames stride ts).2 ∧
      (frameRange numFrames stride ts).2 ≤ (numFrames : ℤ) := by
  unfold frameRange
  set s0 := truncInt (ts.tstart / stride) with hs0
  set e0 := truncInt (ts.tend / stride) with he0
  by_cases h1 : min (numFrames : ℤ) e0 ≤ max 0 s0
  · by_cases h2 : max 0 s0 + 1 > (numFrames : ℤ)
    · simp only [h1, h2, if_pos, if_true]
      constructor
      · omega
      · constructor <;> omega
    · simp only [h1, h2, if_pos, if_true, if_false]
      refine ⟨le_max_left 0 s0, by omega, by omega⟩
  · simp only [h1, if_false]
    refine ⟨le_max_left 0 s0, by omega, min_le_left _ _⟩

/-- For a non-empty matrix, the frame slice of any window is non-empty. -/
theorem sliceRows_ne_nil (full : List (List FVal)) (stride : ℚ) (ts : TsWindow)
    (h : full ≠ []) : sliceRows full stride ts ≠ [] := by
  have hlen : 1 ≤ full.length := List.length_pos.mpr h
  obtain ⟨hb0, hb1, hb2⟩ := frameRange_bounds full.length stride ts hlen
  intro hnil
  have hl := congrArg List.length hnil
  simp only [sliceRows, List.length_take, List.length_drop, List.length_nil] at hl
  omega

/-- Every row of a window's frame slice is a row of the full matrix. -/
theorem sliceRows_subset (full : List (List FVal)) (stride : ℚ) (ts : TsWindow) :
    ∀ r ∈ sliceRows full stride ts, r ∈ full := by
  intro r hr
  simp only [sliceRows] at hr
  exact List.drop_subset _ full (List.take_subset _ _ hr)

/-- Summing rows of equal length preserves that length. -/
theorem vecSumF_length (D : ℕ) : ∀ rows : List (List FVal), rows ≠ [] →
    (∀ r ∈ rows, r.length = D) → (vecSumF rows).length = D := by
  intro rows
  induction rows with
  | nil => intro h; exact absurd rfl h
  | cons r rs ih =>
    intro _ hall
    cases rs with
    | nil => simpa [vecSumF] using hall r (by simp)
    | cons r2 rs2 =>
      have hr : r.length = D := hall r (by simp)
      have hrest : (vecSumF (r2 :: rs2)).length = D := by
        refine ih (by simp) ?_
        intro x hx
        exact hall x (List.mem_cons_of_mem _ hx)
      simp [vecSumF, vecAddF, List.length_zipWith, hr, hrest]

/-- Membership in a `zipWith` comes from members of the two lists. -/
theorem mem_zipWith_elim {f : FVal → FVal → FVal} : ∀ {l1 l2 : List FVal} {x : FVal},
    x ∈ List.zipWith f l1 l2 → ∃ a ∈ l1, ∃ b ∈ l2, x = f a b := by
  intro l1
  induction l1 with
  | nil => intro l2 x hx; simp at hx
  | cons a l ih =>
    intro l2 x hx
    cases l2 with
    | nil => simp at hx
    | cons b l2 =>
      simp only [List.zipWith_cons_cons, List.mem_cons] at hx
      rcases hx with rfl | hx
      · exact ⟨a, by simp, b, by simp, rfl⟩
      · obtain ⟨a2, ha2, b2, hb2, rfl⟩ := ih hx
        exact ⟨a2, by simp [ha2], b2, by simp [hb2], rfl⟩

/-- Summing rows of finite cells yields finite cells. -/
theorem vecSumF_finite : ∀ rows : List (List FVal),
    (∀ r ∈ rows, ∀ x ∈ r, x.isFinite = true) →
    ∀ x ∈ vecSumF rows, x.isFinite = true := by
  intro rows
  induction rows with
  | nil => intro _ x hx; simp [vecSumF] at hx
  | cons r rs ih =>
    intro hall x hx
    cases rs with
    | nil => exact hall r (by simp) x (by simpa [vecSumF] using hx)
    | cons r2 rs2 =>
      simp only [vecSumF, vecAddF] at hx
      obtain ⟨a, ha, b, hb, rfl⟩ := mem_zipWith_elim hx
      have hfa : a.isFinite = true := hall r (by simp) a ha
      have hfb : b.isFinite = true := by
        refine ih ?_ b hb
        intro y hy z hz
        exact hall y (List.mem_cons_of_mem _ hy) z hz
      cases a <;> cases b <;> simp [FVal.add, FVal.isFinite] at hfa hfb ⊢

/-- The mean of a non-empty list of rows of length `D` has length `D`. -/
theorem meanRows_length (D : ℕ) (rows : List (List FVal)) (hne : rows ≠ [])
    (hall : ∀ r ∈ rows, r.length = D) : (meanRows rows).length = D := by
  simp [meanRows, vecSumF_length D rows hne hall]

/-- The mean of rows of finite cells has only finite cells. -/
theorem meanRows_finite (rows : List (List FVal))
    (hall : ∀ r ∈ rows, ∀ x ∈ r, x.isFinite = true) :
    ∀ x ∈ meanRows rows, x.isFinite = true := by
  intro x hx
  simp only [meanRows, List.mem_map] at hx
  obtain ⟨y, hy, rfl⟩ := hx
  have hfy := vecSumF_finite rows hall y hy
  cases y <;> simp [FVal.divNat, FVal.isFinite] at hfy ⊢

/-- For a non-empty matrix the zero-vector fallback branch of `pooledVec` is
never taken: pooling is always a mean of the selected rows. -/
theorem pooledVec_eq_meanRows (full : List (List FVal)) (stride : ℚ) (ts : TsWindow)
    (h : full ≠ []) : pooledVec full stride ts = meanRows (sliceRows full stride ts) := by
  have hne := sliceRows_ne_nil full stride ts h
  simp only [pooledVec]
  rw [if_pos (List.length_pos.mpr hne)]

/-- C1: against a non-empty rectangular embedding matrix,
`slice_embeddings_by_timestamps` returns exactly one pooled vector per
timestamp window; every pooled vector is the mean of a non-empty selection of
matrix rows (the clipped, widened frame slice), has the matrix's fixed row
dimension `D`, and is NaN/Inf-free whenever the matrix is. -/
theorem c1_slicing_yields_one_pooled_mean_per_window
    (full : List (List FVal)) (timestamps : List TsWindow) (stride : ℚ) (D : ℕ)
    (hne : full ≠ []) (hrect : ∀ r ∈ full, r.length = D) (_hstride : 0 < stride) :
    (slice_embeddings_by_timestamps full timestamps stride).length = timestamps.length ∧
    ∀ i (hi : i < (slice_embeddings_by_timestamps full timestamps stride).length),
      ∃ rows : List (List FVal), rows ≠ [] ∧ (∀ r ∈ rows, r ∈ full) ∧
        (slice_embeddings_by_timestamps full timestamps stride).get ⟨i, hi⟩ = meanRows rows ∧
        ((slice_embeddings_by_timestamps full timestamps stride).get ⟨i, hi⟩).length = D ∧
        ((∀ r ∈ full, ∀ x ∈ r, x.isFinite = true) →
          ∀ x ∈ (slice_embeddings_by_timestamps full timestamps stride).get ⟨i, hi⟩,
            x.isFinite = true) := by
  constructor
  · simp [slice_embeddings_by_timestamps]
  · intro i hi
    have hi2 : i < timestamps.length := by
      simpa [slice_embeddings_by_timestamps] using hi
    have hget : (slice_embeddings_by_timestamps full timestamps stride).get ⟨i, hi⟩ =
        pooledVec full stride (timestamps.get ⟨i, hi2⟩) := by
      simp [slice_embeddings_by_timestamps]
    set ts := timestamps.get ⟨i, hi2⟩ with hts
    have hsub := sliceRows_subset full stride ts
    have hnil := sliceRows_ne_nil full stride ts hne
    refine ⟨sliceRows full stride ts, hnil, hsub, ?_, ?_, ?_⟩
    · rw [hget, pooledVec_eq_meanRows full stride ts hne]
    · rw [hget, pooledVec_eq_meanRows full stride ts hne]
      exact meanRows_length D _ hnil (fun r hr => hrect r (hsub r hr))
    · intro hfin x hx
      rw [hget, pooledVec_eq_meanRows full stride ts hne] at hx
      exact meanRows_finite _ (fun r hr y hy => hfin r (hsub r hr) y hy) x hx

/-- Witness for C1 at Scenario E: two windows, the second of zero width,
against a 50-frame one-dimensional matrix at the 0.02 s stride — exactly two
pooled vectors come back and the degenerate window's pooled vector contains
no NaN, through the C1 theorem itself. -/
theorem c1_slicing_yields_one_pooled_mean_per_window_witness :
    (List.replicate 50 [FVal.fin 1]) ≠ ([] : List (List FVal)) ∧
    (0 : ℚ) < 1/50 ∧
    (slice_embeddings_by_timestamps (List.replicate 50 [FVal.fin 1])
      [⟨"P1", 0, 1/10, 0⟩, ⟨"P2", 1/10, 1/10, 1⟩] (1/50)).length = 2 ∧
    ∀ x ∈ (slice_embeddings_by_timestamps (List.replicate 50 [FVal.fin 1])
      [⟨"P1", 0, 1/10, 0⟩, ⟨"P2", 1/10, 1/10, 1⟩] (1/50)).get ⟨1, by decide⟩,
      x.isFinite = true := by
  refine ⟨by decide, by norm_num, ?_, ?_⟩
  · exact (c1_slicing_yields_one_pooled_mean_per_window (List.replicate 50 [FVal.fin 1])
      [⟨"P1", 0, 1/10, 0⟩, ⟨"P2", 1/10, 1/10, 1⟩] (1/50) 1 (by decide) (by decide)
      (by norm_num)).1
  · obtain ⟨rows, hne, hsub, hmean, hlen, hfin⟩ :=
      (c1_slicing_yields_one_pooled_mean_per_window (List.replicate 50 [FVal.fin 1])
        [⟨"P1", 0, 1/10, 0⟩, ⟨"P2", 1/10, 1/10, 1⟩] (1/50) 1 (by decide) (by decide)
        (by norm_num)).2 1 (by decide)
    exact hfin (by decide)

/-!
Embedding of `backend/nlp_core/scorer.py`.

`np.linalg.norm(v)` is `sqrt (normSq v)` for the abstract `sqrt` parameter.
The `except` around the scipy `cosine` call catches exactly the shape-mismatch
error, hence the explicit length guard returning 0; the `np.isnan(distance)`
guard is unreachable in exact arithmetic and has no branch here.
-/

/-- Sum of squares of a vector (the square of `np.linalg.norm`). -/
def normSq (v : List ℚ) : ℚ := (v.map (fun x => x * x)).sum

/-- Dot product of two equal-length vectors. -/
def dotQ (v w : List ℚ) : ℚ := (List.zipWith (· * ·) v w).sum

/-- `calculate_cosine_similarity(vec1, vec2)`: None, NaN, Inf and zero-norm
inputs yield 0; otherwise `1 - cosine_distance`, clamped to `[0, 1]`. -/
def calculate_cosine_similarity (sqrt : ℚ → ℚ) (vec1 vec2 : Option (List FVal)) : ℚ :=
  match vec1, vec2 with
  | none, _ => 0
  | _, none => 0
  | some a, some b =>
    if isNanVec a || isNanVec b then 0
    else if isInfVec a || isInfVec b then 0
    else
      let x := a.map FVal.toQ
      let y := b.map FVal.toQ
      let norm1 := sqrt (normSq x)
      let norm2 := sqrt (normSq y)
      if norm1 = 0 ∨ norm2 = 0 then 0
      else if x.length ≠ y.length then 0
      else max 0 (min 1 (1 - (1 - dotQ x y / (norm1 * norm2))))

/-- One per-phoneme score dict.  Optional fields model dict keys that are only
present on some paths. -/
structure ScoreEntry where
  phoneme : String
  score : ℚ
  is_weak : Option Bool
  index : Option ℕ
  tstart : Option ℚ
  tend : Option ℚ
  word : Option String
  position : Option String
deriving DecidableEq, Repr

/-- The honest-failure payload of `generate_unscorable_result`. -/
structure UnscorableResult where
  reason : String
  phonemes : List String
  message : String
  suggestion : String
deriving DecidableEq, Repr

/-- The `messages` lookup of `generate_unscorable_result`. -/
def unscorableMessage (reason : String) : String :=
  if reason = "embedding_count_mismatch" then
    "Audio alignment produced different number of segments than expected."
  else if reason = "embedding_quality_poor" then
    "Could not extract clear speech features from the audio."
  else if reason = "nan_embeddings" then
    "Audio processing produced invalid results."
  else if reason = "all_scores_zero" then
    "Could not compare pronunciation to reference."
  else "Could not accurately score this attempt."

/-- The `suggestions` lookup of `generate_unscorable_result`. -/
def unscorableSuggestion (reason : String) : String :=
  if reason = "embedding_count_mismatch" then
    "Try speaking the complete sentence more evenly."
  else if reason = "embedding_quality_poor" then
    "Speak closer to the microphone in a quiet environment."
  else if reason = "nan_embeddings" then
    "Try recording again with stable audio."
  else if reason = "all_scores_zero" then
    "Speak more clearly and at a moderate pace."
  else "Please speak more clearly and try again."

/-- `generate_unscorable_result(phonemes, reason)`. -/
def generate_unscorable_result (phonemes : List String) (reason : String) : UnscorableResult :=
  ⟨reason, phonemes, unscorableMessage reason, unscorableSuggestion reason⟩

/-- `calculate_phoneme_scores` returns either a score list or the unscorable
dict: exactly one of the two shapes. -/
inductive ScoreResult
  | scores (entries : List ScoreEntry)
  | unscorable (u : UnscorableResult)
deriving DecidableEq, Repr

/-- A default window for `getD` (never read at an in-range index). -/
def defaultTs : TsWindow := ⟨"", 0, 0, 0⟩

/-- The loop body of `calculate_phoneme_scores` at index `i`.  Aligner windows
carry no `word`/`position` keys, so `ts.get('word', '')` is `""` and
`ts.get('position', 'medial')` is `"medial"` whenever timing is attached. -/
def score_entry_at (sqrt : ℚ → ℚ) (threshold : ℚ) (user ref : List (List FVal))
    (phonemes : List String) (timestamps : List TsWindow) (i : ℕ) : ScoreEntry :=
  let sim := calculate_cosine_similarity sqrt (some (user.getD i [])) (some (ref.getD i []))
  { phoneme := phonemes.getD i ""
    score := pyRound 3 sim
    is_weak := some (decide (sim < threshold))
    index := some i
    tstart := if timestamps ≠ [] ∧ i < timestamps.length then
        some (timestamps.getD i defaultTs).tstart else none
    tend := if timestamps ≠ [] ∧ i < timestamps.length then
        some (timestamps.getD i defaultTs).tend else none
    word := if timestamps ≠ [] ∧ i < timestamps.length then some "" else none
    position := if timestamps ≠ [] ∧ i < timestamps.length then some "medial" else none }

/-- The score list built by the loop of `calculate_phoneme_scores` over
`range(min_len)`. -/
def phonemeScoreEntries (sqrt : ℚ → ℚ) (threshold : ℚ) (user ref : List (List FVal))
    (phonemes : List String) (timestamps : List TsWindow) : List ScoreEntry :=
  (List.range (min (min user.length ref.length) phonemes.length)).map
    (score_entry_at sqrt threshold user ref phonemes timestamps)

/-- `calculate_phoneme_scores(user_embeddings, reference_embeddings, phonemes,
timestamps)`.  `zero_count > len * 0.5` is `2 * zero_count > len` exactly. -/
def calculate_phoneme_scores (sqrt : ℚ → ℚ) (threshold : ℚ)
    (user_embeddings reference_embeddings : List (List FVal))
    (phonemes : List String) (timestamps : List TsWindow) : ScoreResult :=
  if user_embeddings.length ≠ reference_embeddings.length then
    .unscorable (generate_unscorable_result phonemes "embedding_count_mismatch")
  else if 2 * (user_embeddings.filter isZeroVec).length > user_embeddings.length then
    .unscorable (generate_unscorable_result phonemes "embedding_quality_poor")
  else if 0 < (user_embeddings.filter isNanVec).length then
    .unscorable (generate_unscorable_result phonemes "nan_embeddings")
  else if phonemeScoreEntries sqrt threshold user_embeddings reference_embeddings
        phonemes timestamps ≠ [] ∧
      (∀ e ∈ phonemeScoreEntries sqrt threshold user_embeddings reference_embeddings
        phonemes timestamps, e.score = 0) then
    .unscorable (generate_unscorable_result phonemes "all_scores_zero")
  else
    .scores (phonemeScoreEntries sqrt threshold user_embeddings reference_embeddings
      phonemes timestamps)

/-- `identify_weak_phonemes(phoneme_scores, threshold)`: strict comparison of
the (rounded) stored score against the threshold. -/
def identify_weak_phonemes (phoneme_scores : List ScoreEntry) (threshold : ℚ) : List String :=
  (phoneme_scores.filter (fun ps => decide (ps.score < threshold))).map ScoreEntry.phoneme

/-- `calculate_overall_score(phoneme_scores)` (unweighted mean, rounded to 2
digits; 0 for an empty list). -/
def calculate_overall_score (phoneme_scores : List ScoreEntry) : ℚ :=
  if phoneme_scores = [] then 0
  else pyRound 2 ((phoneme_scores.map ScoreEntry.score).sum / phoneme_scores.length)

/-- C5: the per-pair similarity is always in `[0, 1]`; a missing, NaN-bearing,
Inf-bearing or zero-norm input forces it to exactly 0; and in the
non-degenerate case it equals `clamp(1 - cosine_distance, 0, 1)`.  No case
raises: the function is total. -/
theorem c5_cosine_similarity_clamped_and_guarded (sqrt : ℚ → ℚ)
    (vec1 vec2 : Option (List FVal)) :
    (0 ≤ calculate_cosine_similarity sqrt vec1 vec2 ∧
      calculate_cosine_similarity sqrt vec1 vec2 ≤ 1) ∧
    (vec1 = none ∨ vec2 = none → calculate_cosine_similarity sqrt vec1 vec2 = 0) ∧
    (∀ a b, vec1 = some a → vec2 = some b →
      ((isNanVec a || isNanVec b) || (isInfVec a || isInfVec b)) = true →
      calculate_cosine_similarity sqrt vec1 vec2 = 0) ∧
    (∀ a b, vec1 = some a → vec2 = some b → sqrt 0 = 0 →
      (normSq (a.map FVal.toQ) = 0 ∨ normSq (b.map FVal.toQ) = 0) →
      calculate_cosine_similarity sqrt vec1 vec2 = 0) ∧
    (∀ a b, vec1 = some a → vec2 = some b →
      isNanVec a = false → isNanVec b = false → isInfVec a = false → isInfVec b = false →
      sqrt (normSq (a.map FVal.toQ)) ≠ 0 → sqrt (normSq (b.map FVal.toQ)) ≠ 0 →
      a.length = b.length →
      calculate_cosine_similarity sqrt vec1 vec2 =
        max 0 (min 1 (1 - (1 - dotQ (a.map FVal.toQ) (b.map FVal.toQ) /
          (sqrt (normSq (a.map FVal.toQ)) * sqrt (normSq (b.map FVal.toQ))))))) := by
  refine ⟨?_, ?_, ?_, ?_, ?_⟩
  · rcases vec1 with _ | a <;> rcases vec2 with _ | b <;>
      simp only [calculate_cosine_similarity]
    · norm_num
    · norm_num
    · norm_num
    · split_ifs <;> norm_num
  · rintro (rfl | rfl)
    · rcases vec2 with _ | b <;> rfl
    · rcases vec1 with _ | a <;> rfl
  · rintro a b rfl rfl h
    simp only [calculate_cosine_similarity]
    rcases Bool.or_eq_true_iff.mp h with h1 | h2
    · rw [if_pos h1]
    · by_cases h1 : (isNanVec a || isNanVec b) = true
      · rw [if_pos h1]
      · rw [if_neg h1, if_pos h2]
  · rintro a b rfl rfl hsq0 hz
    simp only [calculate_cosine_similarity]
    by_cases h1 : (isNanVec a || isNanVec b) = true
    · rw [if_pos h1]
    · rw [if_neg h1]
      by_cases h2 : (isInfVec a || isInfVec b) = true
      · rw [if_pos h2]
      · rw [if_neg h2]
        have : sqrt (normSq (a.map FVal.toQ)) = 0 ∨ sqrt (normSq (b.map FVal.toQ)) = 0 := by
          rcases hz with hz | hz
          · exact Or.inl (by rw [hz, hsq0])
          · exact Or.inr (by rw [hz, hsq0])
        rw [if_pos this]
  · rintro a b rfl rfl hna hnb hia hib hn1 hn2 hlen
    simp only [calculate_cosine_similarity]
    rw [if_neg (by simp [hna, hnb]), if_neg (by simp [hia, hib]),
      if_neg (by push_neg; exact ⟨hn1, hn2⟩),
      if_neg (by simp [List.length_map, hlen])]

/-- Witness for C5: each degenerate guard and the non-degenerate clamp at
concrete one-dimensional inputs, through the C5 theorem itself. -/
theorem c5_cosine_similarity_clamped_and_guarded_witness :
    calculate_cosine_similarity id none (some [FVal.fin 1]) = 0 ∧
    calculate_cosine_similarity id (some [FVal.nan]) (some [FVal.fin 1]) = 0 ∧
    calculate_cosine_similarity id (some [FVal.inf]) (some [FVal.fin 1]) = 0 ∧
    calculate_cosine_similarity id (some [FVal.fin 0]) (some [FVal.fin 1]) = 0 ∧
    calculate_cosine_similarity id (some [FVal.fin 1]) (some [FVal.fin 1]) =
      max 0 (min 1 (1 - (1 - dotQ ([FVal.fin 1].map FVal.toQ) ([FVal.fin 1].map FVal.toQ) /
        (id (normSq ([FVal.fin 1].map FVal.toQ)) * id (normSq ([FVal.fin 1].map FVal.toQ)))))) := by
  refine ⟨?_, ?_, ?_, ?_, ?_⟩
  · exact (c5_cosine_similarity_clamped_and_guarded id none (some [FVal.fin 1])).2.1
      (Or.inl rfl)
  · exact (c5_cosine_similarity_clamped_and_guarded id (some [FVal.nan])
      (some [FVal.fin 1])).2.2.1 [FVal.nan] [FVal.fin 1] rfl rfl (by decide)
  · exact (c5_cosine_similarity_clamped_and_guarded id (some [FVal.inf])
      (some [FVal.fin 1])).2.2.1 [FVal.inf] [FVal.fin 1] rfl rfl (by decide)
  · exact (c5_cosine_similarity_clamped_and_guarded id (some [FVal.fin 0])
      (some [FVal.fin 1])).2.2.2.1 [FVal.fin 0] [FVal.fin 1] rfl rfl rfl
      (Or.inl (by decide))
  · exact (c5_cosine_similarity_clamped_and_guarded id (some [FVal.fin 1])
      (some [FVal.fin 1])).2.2.2.2 [FVal.fin 1] [FVal.fin 1] rfl rfl (by decide) (by decide)
      (by decide) (by decide) (by decide) (by decide) rfl

/-- A `.scores` result of `calculate_phoneme_scores` is exactly the
`range(min_len)` loop output. -/
theorem calculate_phoneme_scores_scores_eq (sqrt : ℚ → ℚ) (threshold : ℚ)
    (user ref : List (List FVal)) (phonemes : List String) (timestamps : List TsWindow)
    (entries : List ScoreEntry)
    (h : calculate_phoneme_scores sqrt threshold user ref phonemes timestamps =
      .scores entries) :
    entries = phonemeScoreEntries sqrt threshold user ref phonemes timestamps := by
  unfold calculate_phoneme_scores at h
  split_ifs at h
  exact (ScoreResult.scores.injEq _ _).mp h.symm

/-- C8: the weak classification boundary is strict.  In
`calculate_phoneme_scores`, a raw similarity exactly equal to the threshold
yields `is_weak = false` and a similarity strictly below yields
`is_weak = true`; `identify_weak_phonemes` likewise selects exactly the
entries whose stored score is strictly below the threshold, so a score equal
to the threshold is never selected. -/
theorem c8_weak_threshold_boundary_is_strict (sqrt : ℚ → ℚ) (threshold : ℚ)
    (user ref : List (List FVal)) (phonemes : List String) (timestamps : List TsWindow)
    (entries : List ScoreEntry)
    (h : calculate_phoneme_scores sqrt threshold user ref phonemes timestamps =
      .scores entries)
    (i : ℕ) (hi : i < entries.length) :
    (calculate_cosine_similarity sqrt (some (user.getD i [])) (some (ref.getD i [])) =
        threshold → (entries.get ⟨i, hi⟩).is_weak = some false) ∧
    (calculate_cosine_similarity sqrt (some (user.getD i [])) (some (ref.getD i [])) <
        threshold → (entries.get ⟨i, hi⟩).is_weak = some true) ∧
    (∀ (th2 : ℚ) (es : List ScoreEntry),
      (∀ e ∈ es, e.score < th2 → e.phoneme ∈ identify_weak_phonemes es th2) ∧
      ((∀ e ∈ es, th2 ≤ e.score) → identify_weak_phonemes es th2 = [])) := by
  have he := calculate_phoneme_scores_scores_eq sqrt threshold user ref phonemes timestamps
    entries h
  subst he
  have hget : (phonemeScoreEntries sqrt threshold user ref phonemes timestamps).get ⟨i, hi⟩ =
      score_entry_at sqrt threshold user ref phonemes timestamps i := by
    simp [phonemeScoreEntries, List.get_eq_getElem]
  refine ⟨?_, ?_, ?_⟩
  · intro hsim
    rw [hget]
    simp only [List.getD_eq_getElem?_getD] at hsim
    simp [score_entry_at, hsim]
  · intro hsim
    rw [hget]
    simp only [List.getD_eq_getElem?_getD] at hsim
    simp [score_entry_at, hsim]
  · intro th2 es
    constructor
    · intro e he2 hlt
      simp only [identify_weak_phonemes, List.mem_map]
      exact ⟨e, List.mem_filter.mpr ⟨he2, by simpa using hlt⟩, rfl⟩
    · intro hall
      simp only [identify_weak_phonemes]
      have hnilf : es.filter (fun ps => decide (ps.score < th2)) = [] := by
        rw [List.filter_eq_nil_iff]
        intro e he2
        simpa using not_lt.mpr (hall e he2)
      rw [hnilf]
      rfl

/-- Witness for C8: one phoneme whose raw similarity is exactly the threshold
is classified not weak, through the C8 theorem itself. -/
theorem c8_weak_threshold_boundary_is_strict_witness :
    calculate_phoneme_scores id 1 [[FVal.fin 1]] [[FVal.fin 1]] ["A"] [] =
      .scores [⟨"A", 1, some false, some 0, none, none, none, none⟩] ∧
    (([⟨"A", 1, some false, some 0, none, none, none, none⟩] : List ScoreEntry).get
      ⟨0, by norm_num⟩).is_weak = some false := by
  refine ⟨by decide, ?_⟩
  exact (c8_weak_threshold_boundary_is_strict id 1 [[FVal.fin 1]] [[FVal.fin 1]] ["A"] []
    [⟨"A", 1, some false, some 0, none, none, none, none⟩] (by decide) 0 (by norm_num)).1
    (by decide)

/-- C10: with equal-length user and reference embedding lists (and the quality
validations passing), a differing phoneme-label count is not rejected: the
loop runs over `range(min_len)`, pairing embeddings with labels by index and
silently dropping the excess of the longer side, so exactly
`min(N, M)` entries are returned.  The `embedding_count_mismatch`
rejection fires exactly on a user/reference length mismatch. -/
theorem c10_phoneme_count_mismatch_truncates_instead_of_failing
    (sqrt : ℚ → ℚ) (threshold : ℚ) (user ref : List (List FVal))
    (phonemes : List String) (timestamps : List TsWindow)
    (hlen : user.length = ref.length)
    (hzero : ¬ 2 * (user.filter isZeroVec).length > user.length)
    (hnan : (user.filter isNanVec).length = 0)
    (hnz : phonemeScoreEntries sqrt threshold user ref phonemes timestamps = [] ∨
      ∃ e ∈ phonemeScoreEntries sqrt threshold user ref phonemes timestamps, e.score ≠ 0) :
    calculate_phoneme_scores sqrt threshold user ref phonemes timestamps =
      .scores (phonemeScoreEntries sqrt threshold user ref phonemes timestamps) ∧
    (phonemeScoreEntries sqrt threshold user ref phonemes timestamps).length =
      min user.length phonemes.length ∧
    (∀ i (hi : i < (phonemeScoreEntries sqrt threshold user ref phonemes timestamps).length),
      (phonemeScoreEntries sqrt threshold user ref phonemes timestamps).get ⟨i, hi⟩ =
        score_entry_at sqrt threshold user ref phonemes timestamps i ∧
      ((phonemeScoreEntries sqrt threshold user ref phonemes timestamps).get
        ⟨i, hi⟩).phoneme = phonemes.getD i "" ∧
      ((phonemeScoreEntries sqrt threshold user ref phonemes timestamps).get
        ⟨i, hi⟩).index = some i) ∧
    (∀ user2 ref2 : List (List FVal), user2.length ≠ ref2.length →
      calculate_phoneme_scores sqrt threshold user2 ref2 phonemes timestamps =
        .unscorable (generate_unscorable_result phonemes "embedding_count_mismatch")) := by
  refine ⟨?_, ?_, ?_, ?_⟩
  · unfold calculate_phoneme_scores
    have hcond : ¬ (phonemeScoreEntries sqrt threshold user ref phonemes timestamps ≠ [] ∧
        ∀ e ∈ phonemeScoreEntries sqrt threshold user ref phonemes timestamps,
          e.score = 0) := by
      rcases hnz with h | ⟨e, he, hne⟩
      · intro hc; exact hc.1 h
      · intro hc; exact hne (hc.2 e he)
    rw [if_neg (by omega), if_neg hzero, if_neg (by omega), if_neg hcond]
  · simp only [phonemeScoreEntries, List.length_map, List.length_range]
    omega
  · intro i hi
    have hget : (phonemeScoreEntries sqrt threshold user ref phonemes timestamps).get
        ⟨i, hi⟩ = score_entry_at sqrt threshold user ref phonemes timestamps i := by
      simp [phonemeScoreEntries, List.get_eq_getElem]
    refine ⟨hget, ?_, ?_⟩
    · rw [hget]; rfl
    · rw [hget]; rfl
  · intro user2 ref2 h2
    unfold calculate_phoneme_scores
    rw [if_pos h2]

/-- Witness for C10: two equal-length embedding lists against a single
phoneme label yield exactly one score entry, through the C10 theorem. -/
theorem c10_phoneme_count_mismatch_truncates_instead_of_failing_witness :
    calculate_phoneme_scores id (7/10) [[FVal.fin 1], [FVal.fin 1]]
      [[FVal.fin 1], [FVal.fin 2]] ["A"] [] =
      .scores (phonemeScoreEntries id (7/10) [[FVal.fin 1], [FVal.fin 1]]
        [[FVal.fin 1], [FVal.fin 2]] ["A"] []) ∧
    (phonemeScoreEntries id (7/10) [[FVal.fin 1], [FVal.fin 1]]
      [[FVal.fin 1], [FVal.fin 2]] ["A"] []).length = 1 := by
  have h := c10_phoneme_count_mismatch_truncates_instead_of_failing id (7/10)
    [[FVal.fin 1], [FVal.fin 1]] [[FVal.fin 1], [FVal.fin 2]] ["A"] [] rfl (by decide)
    (by decide) (Or.inr (by decide))
  exact ⟨h.1, by simpa using h.2.1⟩

/-!
Embedding of Python `difflib.SequenceMatcher` (stdlib), as used by
`backend/nlp_core/asr_validator.py` on character sequences (similarity ratio)
and word sequences (opcode diff).  All call sites pass `junk=None`, so the
junk set is empty and the junk-aware extension loops of `find_longest_match`
are no-ops; the `autojunk` popularity filter (active only for sequences of
length at least 200) is included.  Dictionaries are association lists.
-/

/-- Record one occurrence index of `x` in the `b2j` association list. -/
def b2jInsert {α : Type} [DecidableEq α] (x : α) (j : ℕ) :
    List (α × List ℕ) → List (α × List ℕ)
  | [] => [(x, [j])]
  | (y, js) :: rest =>
    if x = y then (y, js ++ [j]) :: rest else (y, js) :: b2jInsert x j rest

/-- `b2j`: element of `b` to its ascending list of occurrence indices. -/
def b2jBuild {α : Type} [DecidableEq α] (b : List α) : List (α × List ℕ) :=
  b.enum.foldl (fun acc p => b2jInsert p.2 p.1 acc) []

/-- The `autojunk` filter: for `len(b) >= 200`, drop elements occurring more
than `len(b) // 100 + 1` times. -/
def applyAutojunk {α : Type} (n : ℕ) (assoc : List (α × List ℕ)) :
    List (α × List ℕ) :=
  if 200 ≤ n then assoc.filter (fun p => decide (p.2.length ≤ n / 100 + 1)) else assoc

/-- `b2j.get(x, [])`. -/
def b2jGet {α : Type} [DecidableEq α] (assoc : List (α × List ℕ)) (x : α) : List ℕ :=
  match assoc.find? (fun p => decide (p.1 = x)) with
  | some p => p.2
  | none => []

/-- `j2len.get(j, 0)`. -/
def j2lenGet (m : List (ℕ × ℕ)) (j : ℕ) : ℕ :=
  match m.find? (fun p => decide (p.1 = j)) with
  | some p => p.2
  | none => 0

/-- Inner loop of `find_longest_match` over the occurrence positions of
`a[i]` in `b` (with the `continue` below `blo` and `break` at `bhi`),
building the new `j2len` row and updating the best block. -/
def flmInner (j2len : List (ℕ × ℕ)) (blo bhi i : ℕ) :
    List ℕ → List (ℕ × ℕ) → ℕ × ℕ × ℕ → List (ℕ × ℕ) × (ℕ × ℕ × ℕ)
  | [], newm, best => (newm, best)
  | j :: rest, newm, best =>
    if j < blo then flmInner j2len blo bhi i rest newm best
    else if bhi ≤ j then (newm, best)
    else
      let k := (if j = 0 then 0 else j2lenGet j2len (j - 1)) + 1
      let best2 := if best.2.2 < k then (i + 1 - k, j + 1 - k, k) else best
      flmInner j2len blo bhi i rest ((j, k) :: newm) best2

/-- Outer loop of `find_longest_match` over `i in range(alo, ahi)`; the fuel
is the number of remaining iterations. -/
def flmOuter {α : Type} [DecidableEq α] (a : List α) (b2j : List (α × List ℕ))
    (blo bhi : ℕ) : ℕ → ℕ → List (ℕ × ℕ) → ℕ × ℕ × ℕ → ℕ × ℕ × ℕ
  | 0, _, _, best => best
  | fuel + 1, i, j2len, best =>
    match a.get? i with
    | none => best
    | some x =>
      let p := flmInner j2len blo bhi i (b2jGet b2j x) [] best
      flmOuter a b2j blo bhi fuel (i + 1) p.1 p.2

/-- Backward extension of the best block over equal (non-junk) elements. -/
def extendBack {α : Type} [DecidableEq α] (a b : List α) (alo blo : ℕ) :
    ℕ → ℕ × ℕ × ℕ → ℕ × ℕ × ℕ
  | 0, best => best
  | fuel + 1, (besti, bestj, bestsize) =>
    if alo < besti ∧ blo < bestj ∧ (a.get? (besti - 1)).isSome ∧
        a.get? (besti - 1) = b.get? (bestj - 1) then
      extendBack a b alo blo fuel (besti - 1, bestj - 1, bestsize + 1)
    else (besti, bestj, bestsize)

/-- Forward extension of the best block over equal (non-junk) elements. -/
def extendFwd {α : Type} [DecidableEq α] (a b : List α) (ahi bhi : ℕ) :
    ℕ → ℕ × ℕ × ℕ → ℕ × ℕ × ℕ
  | 0, best => best
  | fuel + 1, (besti, bestj, bestsize) =>
    if besti + bestsize < ahi ∧ bestj + bestsize < bhi ∧
        (a.get? (besti + bestsize)).isSome ∧
        a.get? (besti + bestsize) = b.get? (bestj + bestsize) then
      extendFwd a b ahi bhi fuel (besti, bestj, bestsize + 1)
    else (besti, bestj, bestsize)

/-- `SequenceMatcher.find_longest_match(alo, ahi, blo, bhi)` (empty junk
set, so the two junk-extension loops are identities). -/
def find_longest_match {α : Type} [DecidableEq α] (a b : List α)
    (b2j : List (α × List ℕ)) (alo ahi blo bhi : ℕ) : ℕ × ℕ × ℕ :=
  let best0 := flmOuter a b2j blo bhi (ahi - alo) alo [] (alo, blo, 0)
  let best1 := extendBack a b alo blo best0.1 best0
  extendFwd a b ahi bhi (ahi + bhi) best1

/-- The recursive subdivision of `get_matching_blocks`.  The Python version
uses an explicit queue and sorts the collected blocks; in-order recursion
yields the same sorted list, since every block found in the left subproblem
precedes the middle block, which precedes every block of the right one. -/
def matchingBlocksAux {α : Type} [DecidableEq α] (a b : List α)
    (b2j : List (α × List ℕ)) : ℕ → ℕ → ℕ → ℕ → ℕ → List (ℕ × ℕ × ℕ)
  | 0, _, _, _, _ => []
  | fuel + 1, alo, ahi, blo, bhi =>
    let m := find_longest_match a b b2j alo ahi blo bhi
    if m.2.2 = 0 then []
    else
      matchingBlocksAux a b b2j fuel alo m.1 blo m.2.1 ++
        m :: matchingBlocksAux a b b2j fuel (m.1 + m.2.2) ahi (m.2.1 + m.2.2) bhi

/-- Merge adjacent blocks (the `non_adjacent` accumulation loop). -/
def mergeBlocks : ℕ × ℕ × ℕ → List (ℕ × ℕ × ℕ) → List (ℕ × ℕ × ℕ)
  | cur, [] => if cur.2.2 ≠ 0 then [cur] else []
  | cur, m :: rest =>
    if cur.1 + cur.2.2 = m.1 ∧ cur.2.1 + cur.2.2 = m.2.1 then
      mergeBlocks (cur.1, cur.2.1, cur.2.2 + m.2.2) rest
    else if cur.2.2 ≠ 0 then cur :: mergeBlocks m rest
    else mergeBlocks m rest

/-- `SequenceMatcher(None, a, b).get_matching_blocks()`. -/
def get_matching_blocks {α : Type} [DecidableEq α] (a b : List α) : List (ℕ × ℕ × ℕ) :=
  let b2j := applyAutojunk b.length (b2jBuild b)
  mergeBlocks (0, 0, 0)
      (matchingBlocksAux a b b2j (a.length + b.length + 1) 0 a.length 0 b.length) ++
    [(a.length, b.length, 0)]

/-- The opcode-emitting loop of `get_opcodes`. -/
def opcodesLoop : ℕ → ℕ → List (ℕ × ℕ × ℕ) → List (String × ℕ × ℕ × ℕ × ℕ)
  | _, _, [] => []
  | i, j, (ai, bj, size) :: rest =>
    let tag := if i < ai ∧ j < bj then "replace"
      else if i < ai then "delete"
      else if j < bj then "insert"
      else ""
    (if tag ≠ "" then [(tag, i, ai, j, bj)] else []) ++
      (if size ≠ 0 then [("equal", ai, ai + size, bj, bj + size)] else []) ++
      opcodesLoop (ai + size) (bj + size) rest

/-- `SequenceMatcher(None, a, b).get_opcodes()`. -/
def get_opcodes {α : Type} [DecidableEq α] (a b : List α) :
    List (String × ℕ × ℕ × ℕ × ℕ) :=
  opcodesLoop 0 0 (get_matching_blocks a b)

/-- `SequenceMatcher(None, a, b).ratio()`: `2 * M / T` with `T` the total
length (1.0 when both sequences are empty). -/
def sequenceSimilarity {α : Type} [DecidableEq α] (a b : List α) : ℚ :=
  let msum := ((get_matching_blocks a b).map (fun m => m.2.2)).sum
  if a.length + b.length = 0 then 1
  else 2 * (msum : ℚ) / ((a.length : ℚ) + (b.length : ℚ))

/-!
Embedding of `backend/nlp_core/asr_validator.py`.

`transcribe_audio` is model inference (it catches every exception and returns
`""`), so the transcript is an oracle input: `validate_speech` below takes it
directly where the Python function takes the audio path.  String operations
are over character lists (`String.mk`/`toList`), matching Python's
character-indexed semantics for the ASCII text involved.
-/

/-- Python `sub in s` on character lists. -/
def listInfix (sub : List Char) : List Char → Bool
  | [] => sub.isEmpty
  | c :: rest => sub.isPrefixOf (c :: rest) || listInfix sub rest

/-- `s.lower()`. -/
def pyLower (s : String) : String := String.mk (s.toList.map Char.toLower)

/-- `s.strip()`. -/
def pyStrip (s : String) : String :=
  String.mk (((s.toList.dropWhile Char.isWhitespace).reverse.dropWhile
    Char.isWhitespace).reverse)

/-- `s.split()`: split on whitespace runs, never yielding empty words. -/
def pySplitAux : List Char → List Char → List String
  | [], acc => if acc.isEmpty then [] else [String.mk acc.reverse]
  | c :: rest, acc =>
    if c.isWhitespace then
      (if acc.isEmpty then [] else [String.mk acc.reverse]) ++ pySplitAux rest []
    else pySplitAux rest (c :: acc)

/-- `s.split()`. -/
def pySplit (s : String) : List String := pySplitAux s.toList []

/-- Python `x or default` for an optional string (`None` and `""` are falsy). -/
def pyOr (x : Option String) (dflt : String) : String :=
  match x with
  | some s => if s = "" then dflt else s
  | none => dflt

/-- `_detect_word_issue(user_word, expected_word)`. -/
def detect_word_issue (user_word : Option String) (expected_word : String) : String :=
  match user_word with
  | none => "word_skipped"
  | some uw0 =>
    if uw0 = "" then "word_skipped"
    else
      let uw := uw0.toList.map Char.toLower
      let ew := expected_word.toList.map Char.toLower
      if uw.isPrefixOf ew ∧ uw.length < ew.length then
        "missing_ending_" ++ String.mk (ew.drop uw.length)
      else if uw.isSuffixOf ew ∧ uw.length < ew.length then
        "missing_beginning_" ++ String.mk (ew.take (ew.length - uw.length))
      else if uw.length = ew.length ∧
          ((uw.zip ew).filter (fun p => p.1 != p.2)).length = 1 then
        match (uw.zip ew).filter (fun p => p.1 != p.2) with
        | [(u, e)] => "substituted_" ++ e.toString ++ "_with_" ++ u.toString
        | _ => "mispronounced"
      else if listInfix "th".toList ew ∧
          (listInfix "d".toList uw || listInfix "t".toList uw) then
        "th_substitution"
      else "mispronounced"

/-- One word-diff dict of `get_word_diff`; optional fields model keys present
only on some entry types. -/
structure WordDiffEntry where
  word : String
  type : String
  position : ℕ
  user_said : Option String
  suggestion : Option String
  issue : Option String
deriving DecidableEq, Repr

/-- The entries contributed by one opcode in `get_word_diff`.  In a `replace`
opcode, offsets with a user word but no expected word contribute nothing. -/
def opEntries (transcribed_words expected_words : List String) :
    String × ℕ × ℕ × ℕ × ℕ → List WordDiffEntry
  | (tag, i1, i2, j1, j2) =>
    if tag = "equal" then
      ((expected_words.drop j1).take (j2 - j1)).enum.map (fun p =>
        { word := p.2, type := "correct", position := j1 + p.1,
          user_said := none, suggestion := none, issue := none })
    else if tag = "replace" then
      (List.range (max (i2 - i1) (j2 - j1))).filterMap (fun idx =>
        let user_word := if i1 + idx < i2 then
          some (transcribed_words.getD (i1 + idx) "") else none
        if j1 + idx < j2 then
          let ew := expected_words.getD (j1 + idx) ""
          some { word := ew, type := "wrong", position := j1 + idx,
                 user_said := some (pyOr user_word "(nothing)"),
                 suggestion := some ew,
                 issue := some (detect_word_issue user_word ew) }
        else none)
    else if tag = "delete" then
      ((transcribed_words.drop i1).take (i2 - i1)).enum.map (fun p =>
        { word := p.2, type := "extra", position := i1 + p.1,
          user_said := some p.2, suggestion := none, issue := none })
    else if tag = "insert" then
      ((expected_words.drop j1).take (j2 - j1)).enum.map (fun p =>
        { word := p.2, type := "missing", position := j1 + p.1,
          user_said := none,
          suggestion := some ("You missed saying \x27" ++ p.2 ++ "\x27"),
          issue := none })
    else []

/-- Stable insertion for the `sorted(..., key=position)` call. -/
def insertByPos (x : WordDiffEntry) : List WordDiffEntry → List WordDiffEntry
  | [] => [x]
  | y :: ys => if x.position ≤ y.position then x :: y :: ys else y :: insertByPos x ys

/-- Stable sort by position (Python `sorted` is stable). -/
def sortByPos : List WordDiffEntry → List WordDiffEntry
  | [] => []
  | x :: xs => insertByPos x (sortByPos xs)

/-- `get_word_diff(transcribed_words, expected_words)`. -/
def get_word_diff (transcribed_words expected_words : List String) : List WordDiffEntry :=
  sortByPos (((get_opcodes transcribed_words expected_words).map
    (opEntries transcribed_words expected_words)).flatten)

/-- The result dict of `validate_speech`. -/
structure VResult where
  status : String
  transcribed : String
  expected : String
  similarity : ℚ
  word_diff : List WordDiffEntry
  missing_words : List WordDiffEntry
  extra_words : List WordDiffEntry
  wrong_words : List WordDiffEntry
  can_proceed : Bool
  message : String
deriving DecidableEq, Repr

/-- `validate_speech(audio_path, expected_text, similarity_threshold)`, taking
the transcript (the output of `transcribe_audio`, `""` on failure) in place of
the audio path. -/
def validate_speech (transcribed : String) (expected_text : String)
    (similarity_threshold : ℚ) : VResult :=
  if transcribed = "" then
    { status := "error", transcribed := "", expected := expected_text, similarity := 0,
      word_diff := [], missing_words := [], extra_words := [], wrong_words := [],
      can_proceed := false,
      message := "Could not transcribe audio. Please speak more clearly." }
  else
    let trans_normalized := pyStrip (pyLower transcribed)
    let expected_normalized := pyStrip (pyLower expected_text)
    let similarity := sequenceSimilarity trans_normalized.toList expected_normalized.toList
    let trans_words := pySplit trans_normalized
    let expected_words := pySplit expected_normalized
    let word_diff := get_word_diff trans_words expected_words
    let missing_words := word_diff.filter (fun w => w.type == "missing")
    let extra_words := word_diff.filter (fun w => w.type == "extra")
    let wrong_words := word_diff.filter (fun w => w.type == "wrong")
    let status := if 9/10 ≤ similarity then "match"
      else if similarity_threshold ≤ similarity then "partial"
      else "mismatch"
    let can_proceed : Bool := if 9/10 ≤ similarity then true
      else if similarity_threshold ≤ similarity then true
      else false
    let message := if status == "mismatch" then
        "It sounds like you said something different. Please try saying: \x27" ++
          expected_text ++ "\x27"
      else if status == "partial" then
        "Good attempt! Found " ++ toString (missing_words.length + wrong_words.length) ++
          " word(s) to improve."
      else "Great! You said the sentence correctly."
    { status := status, transcribed := transcribed, expected := expected_text,
      similarity := pyRound 3 similarity, word_diff := word_diff,
      missing_words := missing_words, extra_words := extra_words,
      wrong_words := wrong_words, can_proceed := can_proceed, message := message }

/-!
Embedding of `backend/nlp_core/aligner.py`.

`get_phoneme_timestamps` runs the CTC model and collapses its frame
predictions into character segments (`extract_character_timestamps`); those
segments are an oracle input here.  The pure proportional-distribution step
`map_to_phonemes` is embedded in full; the float accumulation
`current_time += phoneme_duration` is the exact `i * phoneme_duration`.
-/

/-- One character segment `{'char': ..., 'start': ..., 'end': ...}`. -/
structure CharTs where
  char : String
  cstart : ℚ
  cend : ℚ
deriving DecidableEq, Repr

/-- `map_to_phonemes(char_timestamps, expected_phonemes)`: distribute the
total detected duration proportionally over the expected phonemes, rounding
each boundary to 3 decimal places. -/
def map_to_phonemes (char_timestamps : List CharTs) (expected_phonemes : List String) :
    List TsWindow :=
  if char_timestamps = [] ∨ expected_phonemes = [] then []
  else
    let total_duration := ((char_timestamps.getLast?).map CharTs.cend).getD 0
    let phoneme_duration := total_duration / (expected_phonemes.length : ℚ)
    (List.range expected_phonemes.length).map (fun i =>
      { phoneme := expected_phonemes.getD i ""
        tstart := pyRound 3 ((i : ℚ) * phoneme_duration)
        tend := pyRound 3 (((i : ℚ) + 1) * phoneme_duration)
        index := i })

/-- Round-half-to-even is monotone. -/
theorem roundHalfEven_mono {q r : ℚ} (h : q ≤ r) : roundHalfEven q ≤ roundHalfEven r := by
  unfold roundHalfEven
  have hfm : ⌊q⌋ ≤ ⌊r⌋ := Int.floor_mono h
  by_cases hq : q - ⌊q⌋ = 1/2 <;> by_cases hr : r - ⌊r⌋ = 1/2
  · rw [if_pos hq, if_pos hr]
    rcases lt_or_eq_of_le hfm with hlt | heq
    · have h1 : (if 2 ∣ ⌊q⌋ then ⌊q⌋ else ⌊q⌋ + 1) ≤ ⌊q⌋ + 1 := by split_ifs <;> omega
      have h2 : ⌊r⌋ ≤ (if 2 ∣ ⌊r⌋ then ⌊r⌋ else ⌊r⌋ + 1) := by split_ifs <;> omega
      omega
    · rw [heq]
  · rw [if_pos hq, if_neg hr]
    have hq2 : (q : ℚ) = (⌊q⌋ : ℚ) + 1/2 := by linarith
    have h3 : ⌊q⌋ + 1 ≤ ⌊r + 1/2⌋ := by
      apply Int.le_floor.mpr
      push_cast
      linarith
    have h1 : (if 2 ∣ ⌊q⌋ then ⌊q⌋ else ⌊q⌋ + 1) ≤ ⌊q⌋ + 1 := by split_ifs <;> omega
    omega
  · rw [if_neg hq, if_pos hr]
    have hr2 : (r : ℚ) = (⌊r⌋ : ℚ) + 1/2 := by linarith
    have hlt : q + 1/2 < (⌊r⌋ : ℚ) + 1 := by
      rcases lt_or_eq_of_le h with hlt | heq
      · linarith
      · exfalso
        apply hq
        rw [heq]
        exact hr
    have h3 : ⌊q + 1/2⌋ ≤ ⌊r⌋ := by
      have : ⌊q + 1/2⌋ < ⌊r⌋ + 1 := by
        apply Int.floor_lt.mpr
        push_cast
        linarith
      omega
    have h2 : ⌊r⌋ ≤ (if 2 ∣ ⌊r⌋ then ⌊r⌋ else ⌊r⌋ + 1) := by split_ifs <;> omega
    omega
  · rw [if_neg hq, if_neg hr]
    exact Int.floor_mono (by linarith)

/-- Python rounding to a fixed number of digits is monotone. -/
theorem pyRound_mono (n : ℕ) {q r : ℚ} (h : q ≤ r) : pyRound n q ≤ pyRound n r := by
  unfold pyRound
  have h1 : q * ((10 : ℚ) ^ n) ≤ r * ((10 : ℚ) ^ n) := by
    apply mul_le_mul_of_nonneg_right h
    positivity
  have h2 : roundHalfEven (q * ((10 ^ n : ℕ) : ℚ)) ≤ roundHalfEven (r * ((10 ^ n : ℕ) : ℚ)) := by
    apply roundHalfEven_mono
    push_cast
    exact h1
  have h2q : ((roundHalfEven (q * ((10 ^ n : ℕ) : ℚ))) : ℚ) ≤
      ((roundHalfEven (r * ((10 ^ n : ℕ) : ℚ))) : ℚ) := by exact_mod_cast h2
  gcongr

/-- The window built by `map_to_phonemes` at index `i`. -/
theorem map_to_phonemes_get (char_timestamps : List CharTs) (expected_phonemes : List String)
    (hc : char_timestamps ≠ []) (hp : expected_phonemes ≠ [])
    (i : ℕ) (hi : i < (map_to_phonemes char_timestamps expected_phonemes).length) :
    (map_to_phonemes char_timestamps expected_phonemes).get ⟨i, hi⟩ =
      { phoneme := expected_phonemes.getD i ""
        tstart := pyRound 3 ((i : ℚ) *
          (((char_timestamps.getLast?).map CharTs.cend).getD 0 /
            (expected_phonemes.length : ℚ)))
        tend := pyRound 3 (((i : ℚ) + 1) *
          (((char_timestamps.getLast?).map CharTs.cend).getD 0 /
            (expected_phonemes.length : ℚ)))
        index := i } := by
  simp [map_to_phonemes, hc, hp, List.get_eq_getElem]

/-- C7 (amended): for non-empty inputs with a non-negative detected duration,
`map_to_phonemes` returns exactly one window per expected phoneme, in the
same order, with non-decreasing rounded boundaries; adjacent windows share a
boundary, the first starts at 0 and the last ends at the total detected
duration rounded to 3 decimals.  (Windows can be narrower than one embedding
frame — see the counterexample — so the frame-width guarantee of the original
claim is provided only later, by the embedding slicer.) -/
theorem c7_map_to_phonemes_ordered_partition (char_timestamps : List CharTs)
    (expected_phonemes : List String)
    (hc : char_timestamps ≠ []) (hp : expected_phonemes ≠ [])
    (hpos : 0 ≤ ((char_timestamps.getLast?).map CharTs.cend).getD 0) :
    (map_to_phonemes char_timestamps expected_phonemes).length =
      expected_phonemes.length ∧
    (∀ i (hi : i < (map_to_phonemes char_timestamps expected_phonemes).length),
      ((map_to_phonemes char_timestamps expected_phonemes).get ⟨i, hi⟩).phoneme =
        expected_phonemes.getD i "" ∧
      ((map_to_phonemes char_timestamps expected_phonemes).get ⟨i, hi⟩).index = i ∧
      ((map_to_phonemes char_timestamps expected_phonemes).get ⟨i, hi⟩).tstart ≤
        ((map_to_phonemes char_timestamps expected_phonemes).get ⟨i, hi⟩).tend) ∧
    (∀ i (hi0 : i < (map_to_phonemes char_timestamps expected_phonemes).length)
      (hi1 : i + 1 < (map_to_phonemes char_timestamps expected_phonemes).length),
      ((map_to_phonemes char_timestamps expected_phonemes).get ⟨i, hi0⟩).tend =
        ((map_to_phonemes char_timestamps expected_phonemes).get ⟨i + 1, hi1⟩).tstart) ∧
    (∀ h0 : 0 < (map_to_phonemes char_timestamps expected_phonemes).length,
      ((map_to_phonemes char_timestamps expected_phonemes).get ⟨0, h0⟩).tstart = 0) ∧
    (∀ hN : expected_phonemes.length - 1 <
        (map_to_phonemes char_timestamps expected_phonemes).length,
      ((map_to_phonemes char_timestamps expected_phonemes).get
          ⟨expected_phonemes.length - 1, hN⟩).tend =
        pyRound 3 (((char_timestamps.getLast?).map CharTs.cend).getD 0)) := by
  have hN0 : 0 < expected_phonemes.length := List.length_pos.mpr hp
  have hd : 0 ≤ ((char_timestamps.getLast?).map CharTs.cend).getD 0 /
      (expected_phonemes.length : ℚ) := by
    apply div_nonneg hpos
    positivity
  refine ⟨?_, ?_, ?_, ?_, ?_⟩
  · simp [map_to_phonemes, hc, hp]
  · intro i hi
    rw [map_to_phonemes_get char_timestamps expected_phonemes hc hp i hi]
    refine ⟨rfl, rfl, ?_⟩
    apply pyRound_mono
    apply mul_le_mul_of_nonneg_right (by linarith) hd
  · intro i hi0 hi1
    rw [map_to_phonemes_get char_timestamps expected_phonemes hc hp i hi0,
      map_to_phonemes_get char_timestamps expected_phonemes hc hp (i + 1) hi1]
    push_cast
    rfl
  · intro h0
    rw [map_to_phonemes_get char_timestamps expected_phonemes hc hp 0 h0]
    norm_num
    unfold pyRound roundHalfEven
    norm_num
  · intro hN
    rw [map_to_phonemes_get char_timestamps expected_phonemes hc hp
      (expected_phonemes.length - 1) hN]
    have hcast : ((expected_phonemes.length - 1 : ℕ) : ℚ) + 1 =
        (expected_phonemes.length : ℚ) := by
      have : 1 ≤ expected_phonemes.length := hN0
      push_cast [Nat.cast_sub this]
      ring
    rw [hcast]
    field_simp

/-- Witness for C7 (amended) at a concrete two-phoneme input, through the C7
theorem itself. -/
theorem c7_map_to_phonemes_ordered_partition_witness :
    (map_to_phonemes [⟨"A", 0, 1/10⟩] ["P", "Q"]).length = 2 := by
  exact (c7_map_to_phonemes_ordered_partition [⟨"A", 0, 1/10⟩] ["P", "Q"]
    (by decide) (by decide) (by decide)).1

/-- Counterexample for C7 as stated: over a 0.1 s detected duration, ten
phonemes get windows 0.01 s wide — narrower than the 0.02 s embedding frame,
so aligner windows are not always at least one embedding frame wide. -/
theorem c7_window_narrower_than_frame_counterexample :
    ∃ w ∈ map_to_phonemes [⟨"A", 0, 1/10⟩]
        ["P0", "P1", "P2", "P3", "P4", "P5", "P6", "P7", "P8", "P9"],
      w.tend - w.tstart < WAV2VEC2_STRIDE_SECONDS := by decide

/-!
Embedding of `backend/apps/practice/services.py`.

The Django settings module is not among the sources, so the configuration
values read from `settings.SCORING_CONFIG` (`WEAK_PHONEME_THRESHOLD`, read
with default 0.7, and `SCORE_BOOST`, read with default 0.15) are environment
parameters.  Model inference, the filesystem, and the `random.uniform` draws
are oracle inputs.  Stages whose Python wrappers catch every exception
(`transcribe_audio`, `compute_contextual_embeddings`,
`compute_sentence_embedding`, `_generate_feedback`) are plain values; stages
whose exceptions reach `process_attempt`'s own `try`/`except` are `Except`
values.  Database cache writes have no effect on the returned result and are
not modelled.
-/

/-- A Python exception crossing a stage boundary: whether it is a
`ValueError`, and its message. -/
structure PyExc where
  isValueError : Bool
  msg : String
deriving DecidableEq, Repr

/-- The `ReferenceSentence` fields read by the service.
`reference_embeddings` is the deserialised cached list (`none` for a
null/empty/unreadable blob that provides no usable cache). -/
structure SentenceRec where
  text : String
  phoneme_sequence : List String
  alignment_map : List TsWindow
  reference_embeddings : Option (List (List FVal))
  audio_source : Option String
deriving DecidableEq, Repr

/-- The fields of the `detect_mistakes` report read by the orchestrator. -/
structure MistakeReport where
  word_errors : ℕ
  phoneme_errors : ℕ
  feedback : String
deriving DecidableEq, Repr

/-- LLM feedback text; `_generate_feedback` never raises (it catches every
exception and substitutes a static fallback). -/
structure FeedbackRec where
  summary : String
  encouragement : String
deriving DecidableEq, Repr

/-- Oracle inputs of one `process_attempt` run: configuration, model
outputs, filesystem answers and random draws. -/
structure Env where
  dev_mode : Bool
  nlp_available : Bool
  weak_threshold : ℚ
  score_boost : ℚ
  sqrt : ℚ → ℚ
  clean_result : Except PyExc String
  transcript : String
  align_result : Except PyExc (List TsWindow)
  full_embeddings : List (List FVal)
  audio_exists : Bool
  sentence_embedding : List FVal
  ref_save_ok : Bool
  mistakes_result : Except PyExc MistakeReport
  feedback : FeedbackRec
  rand : ℕ → ℚ
  dev_score : ℕ → ℚ
  dev_fluency : ℚ

/-- `s.upper()`. -/
def pyUpper (s : String) : String := String.mk (s.toList.map Char.toUpper)

/-- The `random.uniform` bounds used for one phoneme in
`distribute_sentence_score`: the difficulty class decides the range. -/
def variance_range (phoneme : String) : ℚ × ℚ :=
  let difficult := ["TH", "DH", "ZH", "R", "L", "NG", "SH", "CH", "JH", "W", "Y"]
  let medium := ["S", "Z", "F", "V", "P", "B", "T", "D", "K", "G"]
  if pyUpper phoneme ∈ difficult then (-(2/25), 2/25)
  else if pyUpper phoneme ∈ medium then (-(1/20), 2/25)
  else (-(3/100), 1/10)

/-- `distribute_sentence_score(overall_score, phonemes, timestamps)`: the
i-th `random.uniform` draw is the oracle value `rand i` (a faithful run has
`rand i` inside `variance_range` of the i-th phoneme). -/
def distribute_sentence_score (threshold boost : ℚ) (rand : ℕ → ℚ)
    (overall_score : ℚ) (phonemes : List String) (timestamps : List TsWindow) :
    List ScoreEntry :=
  let boosted_base := min 1 (overall_score + boost)
  (List.range phonemes.length).map (fun i =>
    let variance := rand i
    let score := max (9/20) (min 1 (boosted_base + variance))
    { phoneme := phonemes.getD i ""
      score := pyRound 3 score
      is_weak := some (decide (score < threshold))
      index := none
      tstart := if timestamps ≠ [] ∧ i < timestamps.length then
          some (timestamps.getD i defaultTs).tstart else some ((i : ℚ) * (12/100))
      tend := if timestamps ≠ [] ∧ i < timestamps.length then
          some (timestamps.getD i defaultTs).tend else some (((i : ℚ) + 1) * (12/100))
      word := if timestamps ≠ [] ∧ i < timestamps.length then some "" else none
      position := if timestamps ≠ [] ∧ i < timestamps.length then some "medial"
        else none })

/-- `AssessmentService._calculate_scores`: a single reference vector routes to
the sentence-level fallback (mean of the user vectors against it, then
`distribute_sentence_score`); otherwise the normal per-phoneme comparison.
The `except` with 0.7 fallback around the similarity call is unreachable:
`calculate_cosine_similarity` is total. -/
def service_calculate_scores (env : Env) (user_embeddings reference_embeddings :
    List (List FVal)) (phonemes : List String) (timestamps : List TsWindow) :
    ScoreResult :=
  if reference_embeddings.length = 1 ∧ 0 < user_embeddings.length then
    let user_avg := if 1 < user_embeddings.length then meanRows user_embeddings
      else user_embeddings.getD 0 []
    let overall_sim := calculate_cosine_similarity env.sqrt (some user_avg)
      (some (reference_embeddings.getD 0 []))
    .scores (distribute_sentence_score env.weak_threshold env.score_boost env.rand
      overall_sim phonemes timestamps)
  else
    calculate_phoneme_scores env.sqrt env.weak_threshold user_embeddings
      reference_embeddings phonemes timestamps

/-- The compute-from-audio branch of `_get_reference_embeddings`: without a
reference audio file it substitutes a single 768-dimensional zero vector
("synthetic embeddings"); with one it computes and caches a single
sentence-level embedding (zero vector again if the compute-and-cache step
raises).  It never raises. -/
def computeReferenceFallback (env : Env) (s : SentenceRec) : List (List FVal) :=
  if s.audio_source.isNone || !env.audio_exists then [List.replicate 768 (FVal.fin 0)]
  else if !env.ref_save_ok then [List.replicate 768 (FVal.fin 0)]
  else [env.sentence_embedding]

/-- `AssessmentService._get_reference_embeddings`. -/
def get_reference_embeddings (env : Env) (s : SentenceRec) : List (List FVal) :=
  match s.reference_embeddings with
  | some cached => if 0 < cached.length then cached else computeReferenceFallback env s
  | none => computeReferenceFallback env s

/-- The flat result dict returned by `process_attempt`; optional fields model
keys present only on some paths. -/
structure AttemptResult where
  success : Bool
  error : Option String
  message : Option String
  transcribed : Option String
  expected : Option String
  similarity : Option ℚ
  suggestion : Option String
  reason : Option String
  overall_score : Option ℚ
  fluency_score : Option ℚ
  clarity_score : Option ℚ
  phoneme_scores : Option (List ScoreEntry)
  weak_phonemes : Option (List String)
  text_similarity : Option ℚ
  word_errors : Option ℕ
  phoneme_errors : Option ℕ
  llm_summary : Option String
  dev_mode : Bool
deriving DecidableEq, Repr

/-- The all-absent result record, to be updated per path. -/
def emptyResult : AttemptResult :=
  { success := false, error := none, message := none, transcribed := none,
    expected := none, similarity := none, suggestion := none, reason := none,
    overall_score := none, fluency_score := none, clarity_score := none,
    phoneme_scores := none, weak_phonemes := none, text_similarity := none,
    word_errors := none, phoneme_errors := none, llm_summary := none,
    dev_mode := false }

/-- Pipeline stages, recorded in invocation order. -/
inductive Stage
  | clean
  | asr
  | align
  | embed
  | refs
  | scoring
  | mistakes
  | feedback
deriving DecidableEq, Repr

/-- `_generate_dev_mode_result` (simulated scores; the `random.uniform(0.6,
1.0)` draws are the oracle `dev_score` values, `random.uniform(0.7, 0.95)` is
`dev_fluency`).  Simulated entries carry no `is_weak` key. -/
def dev_mode_result (env : Env) (s : SentenceRec) : AttemptResult :=
  let phs := s.phoneme_sequence
  let scores : List ScoreEntry := (List.range phs.length).map (fun i =>
    { phoneme := phs.getD i ""
      score := pyRound 2 (env.dev_score i)
      is_weak := none
      index := none
      tstart := some ((i : ℚ) * (15/100))
      tend := some (((i : ℚ) + 1) * (15/100))
      word := none
      position := none })
  let overall := if 0 < scores.length then
      (scores.map ScoreEntry.score).sum / (scores.length : ℚ) else 3/4
  let weak := (scores.filter (fun ps => decide (ps.score < env.weak_threshold))).map
    ScoreEntry.phoneme
  let clarity := if 0 < scores.length then
      1 - (weak.length : ℚ) / (scores.length : ℚ) else 3/4
  { emptyResult with
    success := true
    overall_score := some (pyRound 2 overall)
    fluency_score := some (pyRound 2 env.dev_fluency)
    clarity_score := some (pyRound 2 clarity)
    phoneme_scores := some scores
    weak_phonemes := some weak
    llm_summary := some ("Development mode: Audio analysis simulated. " ++
      "Install torch and torchaudio for real assessment.")
    dev_mode := true }

/-- The `except` clauses of `process_attempt`: a `ValueError` whose message
contains "no audio source" yields the simulated dev-mode result with an
explanatory summary; any other `ValueError` is re-raised past the
orchestrator; any other exception becomes `{'success': False, 'error':
str(e)}`. -/
def handle_exc (env : Env) (s : SentenceRec) (e : PyExc) :
    Except PyExc AttemptResult :=
  if e.isValueError then
    if listInfix "no audio source".toList e.msg.toList then
      let r := dev_mode_result env s
      .ok { r with llm_summary := some ("Reference audio not available for this " ++
        "sentence. Showing simulated results. Upload reference audio in admin " ++
        "panel for real assessment.") }
    else .error e
  else
    .ok { emptyResult with success := false, error := some e.msg }

/-- The `content_mismatch` rejection dict (gatekeeper refusal). -/
def content_mismatch_result (asr : VResult) (s : SentenceRec) : AttemptResult :=
  { emptyResult with
    success := false
    error := some "content_mismatch"
    message := some asr.message
    transcribed := some asr.transcribed
    expected := some s.text
    similarity := some asr.similarity
    suggestion := some "Please try again and say the exact sentence shown." }

/-- The `unscorable` rejection dict (honest scoring failure). -/
def unscorable_result (u : UnscorableResult) (asr : VResult) : AttemptResult :=
  { emptyResult with
    success := false
    error := some "unscorable"
    message := some u.message
    reason := some u.reason
    suggestion := some u.suggestion
    transcribed := some asr.transcribed }

/-- `AssessmentService._calculate_fluency_score` (timing-ratio score). -/
def service_fluency_score (user_timestamps reference_timestamps : List TsWindow) :
    Option ℚ :=
  if user_timestamps = [] ∨ reference_timestamps = [] then none
  else
    let user_duration := ((user_timestamps.getLast?).map TsWindow.tend).getD 0
    let ref_duration := ((reference_timestamps.getLast?).map TsWindow.tend).getD 0
    if ref_duration = 0 then none
    else
      let ratio_q := user_duration / ref_duration
      if 2 < ratio_q ∨ ratio_q < 1/2 then some (1/2)
      else some (max 0 (1 - |1 - ratio_q|))

/-- The success dict of `process_attempt` (steps 8-11: mistakes, weak
phonemes, overall/fluency/clarity scores, feedback text).  A missing or zero
fluency value falls back to 95% of the overall score, as in the code's
truthiness test. -/
def success_result (env : Env) (s : SentenceRec) (asr : VResult)
    (ps : List ScoreEntry) (report : MistakeReport) (user_ts : List TsWindow) :
    AttemptResult :=
  let weak := (ps.filter (fun e => e.is_weak.getD false)).map ScoreEntry.phoneme
  let overall := if ps = [] then 0 else (ps.map ScoreEntry.score).sum / (ps.length : ℚ)
  let fluency := service_fluency_score user_ts s.alignment_map
  let clarity := if 0 < ps.length then 1 - (weak.length : ℚ) / (ps.length : ℚ)
    else overall
  { emptyResult with
    success := true
    overall_score := some (pyRound 2 overall)
    fluency_score := some (if fluency.getD 0 = 0 then pyRound 2 (overall * (19/20))
      else pyRound 2 (fluency.getD 0))
    clarity_score := some (pyRound 2 clarity)
    phoneme_scores := some ps
    weak_phonemes := some weak
    transcribed := some asr.transcribed
    text_similarity := some asr.similarity
    word_errors := some report.word_errors
    phoneme_errors := some report.phoneme_errors
    llm_summary := some env.feedback.summary
    dev_mode := false }

/-- `AssessmentService.process_attempt(audio_file, sentence)`: the structured
result — or the re-raised `ValueError` — together with the trace of stages
invoked, in order.  The Python locals `asr_result`, `user_embeddings` and
`reference_embeddings` are inlined at their use sites. -/
def process_attempt (env : Env) (s : SentenceRec) :
    Except PyExc AttemptResult × List Stage :=
  if env.dev_mode || !env.nlp_available then (.ok (dev_mode_result env s), [])
  else
    match env.clean_result with
    | .error e => (handle_exc env s e, [Stage.clean])
    | .ok _path =>
      if !(validate_speech env.transcript s.text (3/5)).can_proceed then
        (.ok (content_mismatch_result (validate_speech env.transcript s.text (3/5)) s),
          [Stage.clean, Stage.asr])
      else
        match env.align_result with
        | .error e => (handle_exc env s e, [Stage.clean, Stage.asr, Stage.align])
        | .ok user_timestamps =>
          match service_calculate_scores env
              (slice_embeddings_by_timestamps env.full_embeddings user_timestamps
                WAV2VEC2_STRIDE_SECONDS)
              (get_reference_embeddings env s) s.phoneme_sequence user_timestamps with
          | .unscorable u =>
            (.ok (unscorable_result u (validate_speech env.transcript s.text (3/5))),
              [Stage.clean, Stage.asr, Stage.align, Stage.embed, Stage.refs,
                Stage.scoring])
          | .scores ps =>
            match env.mistakes_result with
            | .error e =>
              (handle_exc env s e,
                [Stage.clean, Stage.asr, Stage.align, Stage.embed, Stage.refs,
                  Stage.scoring, Stage.mistakes])
            | .ok report =>
              (.ok (success_result env s (validate_speech env.transcript s.text (3/5))
                  ps report user_timestamps),
                [Stage.clean, Stage.asr, Stage.align, Stage.embed, Stage.refs,
                  Stage.scoring, Stage.mistakes, Stage.feedback])

/-- A concrete environment shared by several witnesses: real mode, identity
sqrt, the default configuration values, fixed draws, no reference audio on
disk. -/
def baseEnv : Env :=
  { dev_mode := false
    nlp_available := true
    weak_threshold := 7/10
    score_boost := 3/20
    sqrt := id
    clean_result := .ok "clean.wav"
    transcript := "cat"
    align_result := .ok [⟨"K", 0, 1/10, 0⟩, ⟨"AE", 1/10, 2/10, 1⟩, ⟨"T", 2/10, 3/10, 2⟩]
    full_embeddings := [[FVal.fin 1]]
    audio_exists := false
    sentence_embedding := List.replicate 768 (FVal.fin 1)
    ref_save_ok := true
    mistakes_result := .ok ⟨0, 3, "ok"⟩
    feedback := ⟨"s", "e"⟩
    rand := fun _ => 1/100
    dev_score := fun _ => 4/5
    dev_fluency := 4/5 }

/-- A sentence with neither cached reference embeddings nor reference audio. -/
def noRefSentence : SentenceRec :=
  { text := "cat"
    phoneme_sequence := ["K", "AE", "T"]
    alignment_map := []
    reference_embeddings := none
    audio_source := none }

/-- `AssessmentService._align_audio`: its first statement,
`from nlp_core.aligner import get_phoneme_timestamps,
get_phoneme_timestamps_with_text`, raises `ImportError` on every call,
because `get_phoneme_timestamps_with_text` is defined nowhere in the
repository.  The error message is left abstract; an `ImportError` is not a
`ValueError`, so `process_attempt`'s generic handler turns it into the
structured `{'success': False, 'error': str(e)}` result.  A faithful
environment therefore has `align_result = align_audio_result msg` for some
`msg`; the `Env.align_result` oracle is kept more general only so that the
gatekeeper and exception-handling theorems, which quantify over all
environments, are proved over a superset of the real behaviors. -/
def align_audio_result (msg : String) : Except PyExc (List TsWindow) :=
  .error ⟨false, msg⟩

/-- A concrete message for the alignment-stage import failure. -/
def align_import_error_msg : String :=
  "cannot import name get_phoneme_timestamps_with_text from nlp_core.aligner"

/-- The shared witness environment with the real (always-failing) alignment
stage. -/
def importFailEnv : Env :=
  { baseEnv with align_result := align_audio_result align_import_error_msg }

/-- Counterexample for C2: for a sentence with no cached embeddings and no
reference audio, the pipeline raises no "no reference audio" condition.
With the alignment stage failing as it always does in this program
(`ImportError`), a gatekeeper-passing attempt terminates in the generic
structured import-failure result — whose error message nowhere mentions
missing reference audio — and the reference lookup, embedding and scoring
stages are never invoked. -/
theorem c2_no_reference_audio_counterexample :
    (process_attempt importFailEnv noRefSentence).1 =
      .ok { emptyResult with success := false, error := some align_import_error_msg } ∧
    listInfix "no audio source".toList align_import_error_msg.toList = false ∧
    (process_attempt importFailEnv noRefSentence).2 =
      [Stage.clean, Stage.asr, Stage.align] ∧
    Stage.refs ∉ (process_attempt importFailEnv noRefSentence).2 ∧
    Stage.embed ∉ (process_attempt importFailEnv noRefSentence).2 ∧
    Stage.scoring ∉ (process_attempt importFailEnv noRefSentence).2 := by
  refine ⟨by rfl, by decide, by decide, by decide, by decide, by decide⟩

/-- C2 (amended): when an `ExpectedSentence` has no usable cached embeddings
and no reference audio exists, no "no reference audio" condition is ever
raised.  The `_get_reference_embeddings` helper would substitute a single
synthetic zero reference vector rather than raise — and in the real program
it is not even reached: the alignment stage always fails with an
`ImportError` (`get_phoneme_timestamps_with_text` does not exist), so every
gatekeeper-passing attempt terminates in the generic structured
import-failure result, before reference lookup, embedding extraction or
scoring. -/
theorem c2_no_reference_audio_substitutes_zero_vector (env : Env) (s : SentenceRec)
    (msg : String)
    (hcache : s.reference_embeddings = none ∨ s.reference_embeddings = some [])
    (haudio : s.audio_source = none ∨ env.audio_exists = false)
    (halign : env.align_result = align_audio_result msg) :
    get_reference_embeddings env s = [List.replicate 768 (FVal.fin 0)] ∧
    (env.dev_mode = false → env.nlp_available = true →
      ∀ p, env.clean_result = .ok p →
      (validate_speech env.transcript s.text (3/5)).can_proceed = true →
      (process_attempt env s).1 =
        .ok { emptyResult with success := false, error := some msg } ∧
      (process_attempt env s).2 = [Stage.clean, Stage.asr, Stage.align] ∧
      Stage.embed ∉ (process_attempt env s).2 ∧
      Stage.refs ∉ (process_attempt env s).2 ∧
      Stage.scoring ∉ (process_attempt env s).2) := by
  have hfall : computeReferenceFallback env s = [List.replicate 768 (FVal.fin 0)] := by
    unfold computeReferenceFallback
    rcases haudio with h | h
    · rw [if_pos]
      simp [h]
    · rw [if_pos]
      simp [h]
  constructor
  · unfold get_reference_embeddings
    rcases hcache with h | h <;> rw [h] <;> simpa using hfall
  · intro hdev hnlp p hclean hasr
    have h : process_attempt env s =
        (.ok { emptyResult with success := false, error := some msg },
          [Stage.clean, Stage.asr, Stage.align]) := by
      simp [process_attempt, hdev, hnlp, hclean, hasr, halign, align_audio_result,
        handle_exc]
    refine ⟨by rw [h], by rw [h], ?_, ?_, ?_⟩ <;> rw [h] <;> simp

/-- Witness for C2 (amended) at the concrete no-reference sentence with the
real (always-failing) alignment stage, through the C2 theorem itself. -/
theorem c2_no_reference_audio_substitutes_zero_vector_witness :
    get_reference_embeddings importFailEnv noRefSentence =
      [List.replicate 768 (FVal.fin 0)] ∧
    Stage.scoring ∉ (process_attempt importFailEnv noRefSentence).2 := by
  have h := c2_no_reference_audio_substitutes_zero_vector importFailEnv
    noRefSentence align_import_error_msg (Or.inl rfl) (Or.inr rfl) rfl
  exact ⟨h.1, (h.2 rfl rfl "clean.wav" rfl (by decide)).2.2.2.2⟩

/-- C3 evidence: with a single reference vector and at least one user vector,
`_calculate_scores` routes to `distribute_sentence_score`, which fabricates
one score per phoneme from the boosted overall similarity plus that phoneme's
own random draw, clamped into [0.45, 1] — synthetic per-phoneme variance in
place of one honestly reported low-resolution score. -/
theorem c3_sentence_fallback_fabricates_random_scores (env : Env)
    (user : List (List FVal)) (ref1 : List FVal) (phonemes : List String)
    (timestamps : List TsWindow) (hu : 0 < user.length) :
    service_calculate_scores env user [ref1] phonemes timestamps =
      .scores (distribute_sentence_score env.weak_threshold env.score_boost env.rand
        (calculate_cosine_similarity env.sqrt
          (some (if 1 < user.length then meanRows user else user.getD 0 []))
          (some ref1)) phonemes timestamps) ∧
    (∀ overall : ℚ,
      (distribute_sentence_score env.weak_threshold env.score_boost env.rand overall
        phonemes timestamps).length = phonemes.length ∧
      ∀ i (hi : i < (distribute_sentence_score env.weak_threshold env.score_boost
          env.rand overall phonemes timestamps).length),
        ((distribute_sentence_score env.weak_threshold env.score_boost env.rand
          overall phonemes timestamps).get ⟨i, hi⟩).score =
          pyRound 3 (max (9/20) (min 1 (min 1 (overall + env.score_boost) +
            env.rand i)))) := by
  constructor
  · unfold service_calculate_scores
    rw [if_pos ⟨by simp, hu⟩]
    rfl
  · intro overall
    constructor
    · simp [distribute_sentence_score]
    · intro i hi
      simp [distribute_sentence_score, List.get_eq_getElem]

/-- Witness for C3 at a failing input: sentence similarity 0 against a
zero-norm reference vector still yields two fabricated scores of 0.45,
through the C3 theorem itself. -/
theorem c3_sentence_fallback_fabricates_random_scores_witness :
    service_calculate_scores baseEnv [[FVal.fin 1], [FVal.fin 1]]
      [[FVal.fin 0]] ["TH", "S"] [] =
      .scores (distribute_sentence_score baseEnv.weak_threshold baseEnv.score_boost
        baseEnv.rand
        (calculate_cosine_similarity baseEnv.sqrt
          (some (if 1 < ([[FVal.fin 1], [FVal.fin 1]] : List (List FVal)).length then
            meanRows [[FVal.fin 1], [FVal.fin 1]]
            else ([[FVal.fin 1], [FVal.fin 1]] : List (List FVal)).getD 0 []))
          (some [FVal.fin 0])) ["TH", "S"] []) ∧
    service_calculate_scores baseEnv [[FVal.fin 1], [FVal.fin 1]]
      [[FVal.fin 0]] ["TH", "S"] [] =
      .scores [⟨"TH", 9/20, some true, none, some 0, some (3/25), none, none⟩,
        ⟨"S", 9/20, some true, none, some (3/25), some (6/25), none, none⟩] := by
  refine ⟨?_, by decide⟩
  exact (c3_sentence_fallback_fabricates_random_scores baseEnv
    [[FVal.fin 1], [FVal.fin 1]] [FVal.fin 0] ["TH", "S"] []
    (by decide)).1

/-- Classification of `handle_exc` outcomes: the re-raised exceptions are
exactly the ValueErrors without "no audio source" in the message; every
returned dict is structured, with the success flag consistent with the error
field. -/
theorem handle_exc_spec (env : Env) (s : SentenceRec) (e : PyExc) :
    (∀ e2, handle_exc env s e = .error e2 →
      e2.isValueError = true ∧
        listInfix "no audio source".toList e2.msg.toList = false) ∧
    (∀ r, handle_exc env s e = .ok r →
      (r.success = true ∧ r.error = none) ∨ (r.success = false ∧ r.error ≠ none)) := by
  constructor
  · intro e2 he
    unfold handle_exc at he
    by_cases h1 : e.isValueError = true
    · rw [if_pos h1] at he
      by_cases h2 : listInfix "no audio source".toList e.msg.toList = true
      · rw [if_pos h2] at he
        exact absurd he (by simp)
      · rw [if_neg h2] at he
        cases he
        exact ⟨h1, by simpa using h2⟩
    · rw [if_neg h1] at he
      exact absurd he (by simp)
  · intro r hr
    unfold handle_exc at hr
    by_cases h1 : e.isValueError = true
    · rw [if_pos h1] at hr
      by_cases h2 : listInfix "no audio source".toList e.msg.toList = true
      · rw [if_pos h2] at hr
        simp only [Except.ok.injEq] at hr
        subst hr
        left
        exact ⟨by simp [dev_mode_result, emptyResult], by simp [dev_mode_result, emptyResult]⟩
      · rw [if_neg h2] at hr
        exact absurd hr (by simp)
    · rw [if_neg h1] at hr
      simp only [Except.ok.injEq] at hr
      subst hr
      right
      exact ⟨rfl, by simp⟩

/-- Every run of `process_attempt` ends in one of five outcome shapes: the
dev-mode simulation, an exception handler outcome, the content-mismatch
rejection, the unscorable rejection, or the success dict. -/
theorem process_attempt_outcomes (env : Env) (s : SentenceRec) :
    (process_attempt env s).1 = .ok (dev_mode_result env s) ∨
    (∃ e, (process_attempt env s).1 = handle_exc env s e) ∨
    (∃ asr, (process_attempt env s).1 = .ok (content_mismatch_result asr s)) ∨
    (∃ u asr, (process_attempt env s).1 = .ok (unscorable_result u asr)) ∨
    (∃ asr ps rep uts, (process_attempt env s).1 =
      .ok (success_result env s asr ps rep uts)) := by
  unfold process_attempt
  split
  · left; rfl
  · split
    · right; left; exact ⟨_, rfl⟩
    · split
      · right; right; left; exact ⟨_, rfl⟩
      · split
        · right; left; exact ⟨_, rfl⟩
        · split
          · right; right; right; left; exact ⟨_, _, rfl⟩
          · split
            · right; left; exact ⟨_, rfl⟩
            · right; right; right; right; exact ⟨_, _, _, _, rfl⟩

/-- C9 (amended): every terminal outcome of `process_attempt` is one
structured result whose success flag is consistent with its error field —
except that a stage `ValueError` whose message does not contain
"no audio source" is re-raised to the caller, the one exception leak in the
orchestrator's handlers. -/
theorem c9_structured_results_or_valueerror_reraise (env : Env) (s : SentenceRec) :
    (∀ e, (process_attempt env s).1 = .error e →
      e.isValueError = true ∧
        listInfix "no audio source".toList e.msg.toList = false) ∧
    (∀ r, (process_attempt env s).1 = .ok r →
      (r.success = true ∧ r.error = none) ∨ (r.success = false ∧ r.error ≠ none)) := by
  obtain h | ⟨e0, h⟩ | ⟨asr, h⟩ | ⟨u, asr, h⟩ | ⟨asr, ps, rep, uts, h⟩ :=
    process_attempt_outcomes env s
  · rw [h]
    refine ⟨fun e he => absurd he (by simp), fun r hr => ?_⟩
    simp only [Except.ok.injEq] at hr
    subst hr
    left
    exact ⟨by simp [dev_mode_result, emptyResult], by simp [dev_mode_result, emptyResult]⟩
  · rw [h]
    exact ⟨fun e he => (handle_exc_spec env s e0).1 e he,
      fun r hr => (handle_exc_spec env s e0).2 r hr⟩
  · rw [h]
    refine ⟨fun e he => absurd he (by simp), fun r hr => ?_⟩
    simp only [Except.ok.injEq] at hr
    subst hr
    right
    exact ⟨by simp [content_mismatch_result, emptyResult],
      by simp [content_mismatch_result, emptyResult]⟩
  · rw [h]
    refine ⟨fun e he => absurd he (by simp), fun r hr => ?_⟩
    simp only [Except.ok.injEq] at hr
    subst hr
    right
    exact ⟨by simp [unscorable_result, emptyResult],
      by simp [unscorable_result, emptyResult]⟩
  · rw [h]
    refine ⟨fun e he => absurd he (by simp), fun r hr => ?_⟩
    simp only [Except.ok.injEq] at hr
    subst hr
    left
    exact ⟨by simp [success_result, emptyResult], by simp [success_result, emptyResult]⟩

/-- Counterexample for C9: a stage `ValueError` whose message lacks
"no audio source" propagates raw past the orchestrator instead of becoming a
structured result. -/
theorem c9_value_error_leak_counterexample :
    (process_attempt { baseEnv with clean_result := .error ⟨true, "bad input"⟩ }
      noRefSentence).1 = .error ⟨true, "bad input"⟩ := by rfl

/-- Witness for C9 (amended): the leaked exception at the concrete failing
environment is classified by the C9 theorem itself. -/
theorem c9_structured_results_or_valueerror_reraise_witness :
    (⟨true, "bad input"⟩ : PyExc).isValueError = true ∧
      listInfix "no audio source".toList ("bad input" : String).toList = false := by
  exact (c9_structured_results_or_valueerror_reraise
    { baseEnv with clean_result := .error ⟨true, "bad input"⟩ } noRefSentence).1
    ⟨true, "bad input"⟩ (by rfl)

/-- The raw (pre-rounding) full-string similarity computed inside
`validate_speech`. -/
def rawSimilarity (transcribed expected_text : String) : ℚ :=
  sequenceSimilarity (pyStrip (pyLower transcribed)).toList
    (pyStrip (pyLower expected_text)).toList

/-- C4: the gatekeeper's decision — an empty transcript is the distinct
non-proceeding "error" status; similarity at least 0.9 is "match";
at least the proceed threshold is "partial" (proceeding); below it is
"mismatch" with can_proceed false; and whenever the verifier blocks, the
orchestrator returns the content-mismatch rejection immediately, never
invoking the alignment, embedding or scoring stages. -/
theorem c4_gatekeeper_thresholds_and_immediate_rejection
    (transcribed expected_text : String) (thr : ℚ) :
    (transcribed = "" →
      (validate_speech transcribed expected_text thr).status = "error" ∧
        (validate_speech transcribed expected_text thr).can_proceed = false) ∧
    (transcribed ≠ "" → 9/10 ≤ rawSimilarity transcribed expected_text →
      (validate_speech transcribed expected_text thr).status = "match" ∧
        (validate_speech transcribed expected_text thr).can_proceed = true) ∧
    (transcribed ≠ "" → rawSimilarity transcribed expected_text < 9/10 →
      thr ≤ rawSimilarity transcribed expected_text →
      (validate_speech transcribed expected_text thr).status = "partial" ∧
        (validate_speech transcribed expected_text thr).can_proceed = true) ∧
    (transcribed ≠ "" → rawSimilarity transcribed expected_text < 9/10 →
      rawSimilarity transcribed expected_text < thr →
      (validate_speech transcribed expected_text thr).status = "mismatch" ∧
        (validate_speech transcribed expected_text thr).can_proceed = false) ∧
    (∀ (env : Env) (s : SentenceRec) (p : String),
      env.dev_mode = false → env.nlp_available = true →
      env.clean_result = .ok p →
      (validate_speech env.transcript s.text (3/5)).can_proceed = false →
      (process_attempt env s).1 =
        .ok (content_mismatch_result (validate_speech env.transcript s.text (3/5)) s) ∧
      (process_attempt env s).2 = [Stage.clean, Stage.asr] ∧
      Stage.align ∉ (process_attempt env s).2 ∧
      Stage.embed ∉ (process_attempt env s).2 ∧
      Stage.scoring ∉ (process_attempt env s).2) := by
  refine ⟨?_, ?_, ?_, ?_, ?_⟩
  · intro h
    subst h
    exact ⟨rfl, rfl⟩
  · intro hne h9
    simp only [rawSimilarity, String.toList] at h9
    simp [validate_speech, hne, h9]
  · intro hne hlt hthr
    simp only [rawSimilarity, String.toList] at hlt hthr
    simp [validate_speech, hne, not_le.mpr hlt, hthr]
  · intro hne hlt hthr
    simp only [rawSimilarity, String.toList] at hlt hthr
    simp [validate_speech, hne, not_le.mpr hlt, not_le.mpr hthr]
  · intro env s p hdev hnlp hclean hasr
    have h : process_attempt env s =
        (.ok (content_mismatch_result (validate_speech env.transcript s.text (3/5)) s),
          [Stage.clean, Stage.asr]) := by
      simp [process_attempt, hdev, hnlp, hclean, hasr]
    refine ⟨by rw [h], by rw [h], ?_, ?_, ?_⟩ <;> rw [h] <;> simp

/-- Witness for C4 at Scenario B: "completely different sentence" against
"The cat sat" has similarity 1/4, is rejected as a mismatch, and the
orchestrator stops after the gatekeeper, through the C4 theorem itself. -/
theorem c4_gatekeeper_thresholds_and_immediate_rejection_witness :
    ((validate_speech "completely different sentence" "The cat sat" (3/5)).status =
        "mismatch" ∧
      (validate_speech "completely different sentence" "The cat sat"
        (3/5)).can_proceed = false) ∧
    (process_attempt { baseEnv with transcript := "completely different sentence" }
      { noRefSentence with text := "The cat sat" }).2 = [Stage.clean, Stage.asr] := by
  constructor
  · exact (c4_gatekeeper_thresholds_and_immediate_rejection
      "completely different sentence" "The cat sat" (3/5)).2.2.2.1
      (by decide) (by decide) (by decide)
  · exact ((c4_gatekeeper_thresholds_and_immediate_rejection
      "completely different sentence" "The cat sat" (3/5)).2.2.2.2
      { baseEnv with transcript := "completely different sentence" }
      { noRefSentence with text := "The cat sat" } "clean.wav" rfl rfl rfl
      (by decide)).2.1

/-- C6 (amended): Scenario A ("She sell seashells" against "She sells
seashells") yields exactly one wrong-word diff entry, at position 1, with the
missing-trailing-"s" issue, and can_proceed is true — but the status is
"match" (the full-string similarity 36/37, about 0.973, reaches the 0.9 match
threshold), not "partial". -/
theorem c6_scenario_a_single_wrong_word_but_match_status :
    (validate_speech "She sell seashells" "She sells seashells" (3/5)).wrong_words =
      [⟨"sells", "wrong", 1, some "sell", some "sells", some "missing_ending_s"⟩] ∧
    (validate_speech "She sell seashells" "She sells seashells" (3/5)).status =
      "match" ∧
    (validate_speech "She sell seashells" "She sells seashells" (3/5)).can_proceed =
      true ∧
    (validate_speech "She sell seashells" "She sells seashells" (3/5)).similarity =
      973/1000 := by
  refine ⟨by decide, by decide, by decide, by decide⟩

/-- Counterexample for C6 as stated: the status at Scenario A is not
"partial". -/
theorem c6_scenario_a_status_counterexample :
    (validate_speech "She sell seashells" "She sells seashells" (3/5)).status ≠
      "partial" := by decide

end Pronunex
